import Mathlib

/-!
Verification development for `monitor_executive_purchases_dart.py`, a bot
that polls the OpenDart disclosure API, filters executive-ownership
reports, inspects filing text for on-market purchase evidence and pushes
alerts to a messaging channel.

The Python source is embedded shallowly:

* strings are Lean `String`s (Python `needle in hay` becomes substring
  containment over `List Char`);
* the five `re.search` patterns of `extract_purchase_details` are embedded
  as bespoke leftmost-search matchers with the backtracking semantics of
  the Python regex engine specialised to those patterns;
* network calls are oracles (functions supplied as arguments): the listing
  endpoint, the detail endpoint and the delivery outcome of a telegram
  message;
* the side effects of the monitoring loop (detail fetch, notify, mark
  processed) are recorded as an explicit trace; wall-clock concerns
  (`time.sleep(1)`, timestamps inside messages) are elided as they carry
  no data used by any decision in the code.
-/

/-- Python `\s` for the patterns in this file (ASCII whitespace characters;
the source text only ever exercises the plain space). -/
def pySpace (c : Char) : Bool :=
  c = ' ' || c = '\t' || c = '\n' || c = '\r' || c = '\x0b' || c = '\x0c'

/-- Python `[가-힣]`: precomposed Hangul syllables U+AC00 .. U+D7A3. -/
def isHangulSyllable (c : Char) : Bool :=
  0xAC00 ≤ c.toNat && c.toNat ≤ 0xD7A3

/-- `leadsWith n h` is true when `n` is an initial segment of `h`
(the anchored part of a substring test). -/
def leadsWith : List Char → List Char → Bool
  | [], _ => true
  | _ :: _, [] => false
  | a :: as, b :: bs => a == b && leadsWith as bs

/-- Python `needle in hay`: `containsSeq n h` is true when `n` occurs
contiguously inside `h`. -/
def containsSeq (n : List Char) : List Char → Bool
  | [] => n.isEmpty
  | c :: cs => leadsWith n (c :: cs) || containsSeq n cs

/-- Python substring test on strings: `needle in hay`. -/
def containsSub (needle hay : String) : Bool :=
  containsSeq needle.toList hay.toList

/-! ### Regex machinery

Each of the five patterns of `extract_purchase_details` (source lines
235-241) is embedded as a matcher at one start position; `reSearch` then
reproduces `re.search`'s leftmost-match rule by trying successive start
positions. -/

/-- `re.search`: try the matcher at every start position, leftmost first
(the position at end of input included, as in Python). -/
def reSearch {α : Type} (tryAt : List Char → Option α) : List Char → Option α
  | [] => tryAt []
  | c :: cs =>
    match tryAt (c :: cs) with
    | some r => some r
    | none => reSearch tryAt cs

/-- Greedy star over a one-character class with backtracking: consume as
many `p`-characters as possible, then hand the rest to the continuation,
giving characters back one at a time if it fails. -/
def classStar {α : Type} (p : Char → Bool) (k : List Char → Option α) :
    List Char → Option α
  | [] => k []
  | c :: cs =>
    if p c then
      match classStar p k cs with
      | some r => some r
      | none => k (c :: cs)
    else k (c :: cs)

/-- Match a literal character sequence at the front, returning the rest. -/
def dropLit : List Char → List Char → Option (List Char)
  | [], cs => some cs
  | _ :: _, [] => none
  | l :: ls, c :: cs => if c = l then dropLit ls cs else none

/-- Exactly `n` digits from the front (`\d{n}` as one greedy step of a
bounded repetition); returns the digits and the rest. -/
def digitsTake : Nat → List Char → Option (List Char × List Char)
  | 0, cs => some ([], cs)
  | _ + 1, [] => none
  | n + 1, c :: cs =>
    if c.isDigit then
      match digitsTake n cs with
      | some (d, r) => some (c :: d, r)
      | none => none
    else none

/-- `(?:,\d{3})*`, greedily: the maximal run of `,ddd` groups.  Giving a
group back cannot help here because the continuation is `\s*` followed by
a unit character, and a given-back group starts with `,`, which matches
neither. -/
def commaGroups : List Char → List Char × List Char
  | ',' :: a :: b :: c :: rest =>
    if a.isDigit && b.isDigit && c.isDigit then
      let (g, r) := commaGroups rest
      (',' :: a :: b :: c :: g, r)
    else ([], ',' :: a :: b :: c :: rest)
  | cs => ([], cs)

/-- `(\d{1,3}(?:,\d{3})*)\s*u` at one start position, `u` being the unit
character (`주` for shares, `원` for price); returns group 1.  `\d{1,3}`
tries three digits first, then two, then one, as the greedy engine does. -/
def matchNumUnitAt (unit : Char) (cs : List Char) : Option (List Char) :=
  tryWidth 3 <|> tryWidth 2 <|> tryWidth 1
where
  tryWidth (n : Nat) : Option (List Char) :=
    match digitsTake n cs with
    | none => none
    | some (d, r) =>
      let (g, r2) := commaGroups r
      match r2.dropWhile pySpace with
      | u :: _ => if u = unit then some (d ++ g) else none
      | [] => none

/-- Separator class `[-./]` of the transaction-date pattern. -/
def isDateSep (c : Char) : Bool :=
  c = '-' || c = '.' || c = '/'

/-- Trailing `\d{1,2}` of the date pattern (end of pattern, so the greedy
two-digit attempt only falls back to one digit). -/
def dayPart (r : List Char) : Option (List Char) :=
  match digitsTake 2 r with
  | some (d, _) => some d
  | none =>
    match digitsTake 1 r with
    | some (d, _) => some d
    | none => none

/-- `[-./]\d{1,2}` once the month digits are fixed. -/
def sepDay (m : List Char) (r : List Char) : Option (List Char) :=
  match r with
  | [] => none
  | s :: r2 =>
    if isDateSep s then
      match dayPart r2 with
      | some d => some (m ++ s :: d)
      | none => none
    else none

/-- `\d{1,2}[-./]\d{1,2}`: greedy month width with backtracking. -/
def monthThen (r : List Char) : Option (List Char) :=
  (match digitsTake 2 r with
   | some (m, r2) => sepDay m r2
   | none => none) <|>
  (match digitsTake 1 r with
   | some (m, r2) => sepDay m r2
   | none => none)

/-- `(\d{4}[-./]\d{1,2}[-./]\d{1,2})` at one start position. -/
def matchDateAt (cs : List Char) : Option (List Char) :=
  match digitsTake 4 cs with
  | some (y, s :: r) =>
    if isDateSep s then
      match monthThen r with
      | some md => some (y ++ s :: md)
      | none => none
    else none
  | _ => none

/-- `label[:\s]*(cls+)` at one start position: literal label, greedy
`[:\s]*` with backtracking, then a non-empty greedy run of the capture
class (end of pattern, so the run is maximal). -/
def matchLabeledAt (label : List Char) (groupCls : Char → Bool)
    (cs : List Char) : Option (List Char) :=
  match dropLit label cs with
  | none => none
  | some r =>
    classStar (fun c => c = ':' || pySpace c)
      (fun rest =>
        let g := rest.takeWhile groupCls
        if g.isEmpty then none else some g) r

/-- `r'보고자[:\s]*([가-힣]+)'` searched over the content. -/
def reporterSearch (cs : List Char) : Option (List Char) :=
  reSearch (matchLabeledAt "보고자".toList isHangulSyllable) cs

/-- `r'직위[:\s]*([가-힣\s]+)'` searched over the content. -/
def positionSearch (cs : List Char) : Option (List Char) :=
  reSearch (matchLabeledAt "직위".toList
    (fun c => isHangulSyllable c || pySpace c)) cs

/-- `r'(\d{1,3}(?:,\d{3})*)\s*주'` searched over the content. -/
def sharesSearch (cs : List Char) : Option (List Char) :=
  reSearch (matchNumUnitAt '주') cs

/-- `r'(\d{1,3}(?:,\d{3})*)\s*원'` searched over the content. -/
def priceSearch (cs : List Char) : Option (List Char) :=
  reSearch (matchNumUnitAt '원') cs

/-- `r'(\d{4}[-./]\d{1,2}[-./]\d{1,2})'` searched over the content. -/
def dateSearch (cs : List Char) : Option (List Char) :=
  reSearch matchDateAt cs

/-- Python `str.strip()`: drop leading and trailing whitespace.  The only
whitespace a captured group can contain comes from `\s` in its class, so
stripping the `pySpace` characters is exact here. -/
def stripChars (g : List Char) : List Char :=
  ((g.dropWhile pySpace).reverse.dropWhile pySpace).reverse

/-- `match.group(1).strip()` on a hit, the empty string (the initialised
field value) on a miss. -/
def strField (r : Option (List Char)) : String :=
  match r with
  | some g => String.mk (stripChars g)
  | none => ""

/-- `extract_purchase_details`'s result dictionary (source lines 223-232;
the `purchase_info` keys, all strings, empty when unmatched). -/
structure PurchaseInfo where
  reporter : String
  position : String
  transaction_type : String
  shares : String
  price : String
  transaction_date : String
  reason : String
  content_preview : String
deriving DecidableEq

/-- `OpenDartAPI.extract_purchase_details` (source lines 219-262).  The
five regex fields are extracted independently; then the purchase keyword
decides `transaction_type`/`reason` or a `None` return.  The
`try`/`except` wrapper is dead for string input (no pattern here raises),
so it is not modelled. -/
def extract_purchase_details (content : String) : Option PurchaseInfo :=
  let cs := content.toList
  let base : PurchaseInfo :=
    { reporter := strField (reporterSearch cs)
      position := strField (positionSearch cs)
      transaction_type := ""
      shares := strField (sharesSearch cs)
      price := strField (priceSearch cs)
      transaction_date := strField (dateSearch cs)
      reason := ""
      content_preview :=
        if content.length > 200 then String.mk (cs.take 200) ++ "..."
        else content }
  if containsSub "장내매수" content || containsSub "장내 매수" content then
    some { base with transaction_type := "장내매수", reason := "장내매수" }
  else if containsSub "매수" content then
    some { base with transaction_type := "매수", reason := "매수" }
  else none


/-! ### Detail documents and purchase checking -/

/-- One entry of the detail response's `list` (only its `content` field is
read by the source). -/
structure Doc where
  content : String
deriving DecidableEq

/-- The detail-endpoint JSON as read by `check_purchase_transaction`:
`detail.get('status')` and the optional `list` key.  The empty dict `{}`
(the failure value of `get_disclosure_detail`) is the record with both
fields `none`. -/
structure DartDetail where
  status : Option String := none
  list : Option (List Doc) := none
deriving DecidableEq

/-- Source line 203. -/
def purchase_keywords : List String := ["장내매수", "장내 매수", "매수", "취득"]

/-- The document loop of `check_purchase_transaction` (source lines
206-217): for each document whose content holds a purchase keyword, run
the extractor; return its result if truthy, otherwise keep scanning. -/
def checkDocs : List Doc → Option PurchaseInfo
  | [] => none
  | d :: rest =>
    if purchase_keywords.any (fun k => containsSub k d.content) then
      match extract_purchase_details d.content with
      | some info => some info
      | none => checkDocs rest
    else checkDocs rest

/-- `OpenDartAPI.check_purchase_transaction` (source lines 195-217), taken
from the detail response onward (the fetch itself is the caller-supplied
oracle).  `if not detail or detail.get('status') != '000'` collapses to
the status test: the empty dict has no `status` key. -/
def check_purchase_transaction (detail : DartDetail) : Option PurchaseInfo :=
  if detail.status = some "000" then
    match detail.list with
    | some docs => checkDocs docs
    | none => none
  else none

/-! ### Listing entries and the paginated search -/

/-- One entry of a listing response; the source reads every field with
`item.get(key, '')`, so each field is optional. -/
structure Item where
  corp_name : Option String := none
  corp_code : Option String := none
  stock_code : Option String := none
  report_nm : Option String := none
  rcept_no : Option String := none
  flr_nm : Option String := none
  rcept_dt : Option String := none
  rm : Option String := none
deriving DecidableEq

/-- The `ExecutiveDisclosure` dataclass (source lines 27-37). -/
structure ExecutiveDisclosure where
  corp_name : String
  corp_code : String
  stock_code : String
  report_nm : String
  rcept_no : String
  flr_nm : String
  rcept_dt : String
  rm : String
deriving DecidableEq

/-- Source lines 138-143: the four report-title variants. -/
def executive_keywords : List String :=
  ["임원ㆍ주요주주특정증권등소유상황보고서",
   "임원·주요주주특정증권등소유상황보고서",
   "임원특정증권등소유상황보고서",
   "주요주주특정증권등소유상황보고서"]

/-- The classifier of source line 168:
`any(keyword in report_nm for keyword in executive_keywords)`. -/
def isQualifyingReport (report_nm : String) : Bool :=
  executive_keywords.any (fun k => containsSub k report_nm)

/-- A listing response as read by `search_executive_disclosures`: its
`status` and optional `list`; the failure value `{}` is the record with
both fields `none`. -/
structure ListResp where
  status : Option String := none
  list : Option (List Item) := none
deriving DecidableEq

/-- Source lines 156-158: a response contributes its entries only when
`data.get('status') == '000' and 'list' in data`. -/
def respEntries (r : ListResp) : List Item :=
  match r with
  | { status := some s, list := some l } => if s = "000" then l else []
  | _ => []

/-- Source lines 164-179: keep the qualifying entries of a page,
constructing an `ExecutiveDisclosure` with `item.get(key, '')` defaults. -/
def filterPage (items : List Item) : List ExecutiveDisclosure :=
  items.filterMap (fun item =>
    let report_nm := item.report_nm.getD ""
    if isQualifyingReport report_nm then
      some { corp_name := item.corp_name.getD ""
             corp_code := item.corp_code.getD ""
             stock_code := item.stock_code.getD ""
             report_nm := report_nm
             rcept_no := item.rcept_no.getD ""
             flr_nm := item.flr_nm.getD ""
             rcept_dt := item.rcept_dt.getD ""
             rm := item.rm.getD "" }
    else none)

/-- The merged page of one loop iteration: the KOSPI (`'Y'`) and KOSDAQ
(`'K'`) responses for page `page_no`, both requested with page size 100
(source lines 149-158).  `fetch` is the listing oracle, standing for
`get_disclosure_list start_date end_date cls page_no 100`. -/
def combinedPage (fetch : String → Nat → ListResp) (page_no : Nat) : List Item :=
  respEntries (fetch "Y" page_no) ++ respEntries (fetch "K" page_no)

/-- The `while True` pagination loop of `search_executive_disclosures`
(source lines 145-190), returning the disclosures found from page
`page_no` on together with the number of page iterations performed.  The
fuel argument is `11 - page_no` at every call, so the `0` case is never
reached; the loop itself stops through its three `break`s: empty combined
page, short combined page, or the page-10 safety cap. -/
def searchGo (fetch : String → Nat → ListResp) :
    Nat → Nat → List ExecutiveDisclosure × Nat
  | 0, _ => ([], 0)
  | fuel + 1, page_no =>
    let all_data := combinedPage fetch page_no
    if all_data.isEmpty then ([], 1)
    else
      let here := filterPage all_data
      if all_data.length < 100 then (here, 1)
      else if page_no + 1 > 10 then (here, 1)
      else
        let (rest, n) := searchGo fetch fuel (page_no + 1)
        (here ++ rest, n + 1)

/-- `OpenDartAPI.search_executive_disclosures` (source lines 132-193):
the disclosure list it returns, paired with the number of page iterations
the loop ran (the observable the pagination claims speak about). -/
def search_executive_disclosures (fetch : String → Nat → ListResp) :
    List ExecutiveDisclosure × Nat :=
  searchGo fetch 10 1

/-! ### The monitoring loop -/

/-- A monitoring event: one matching filing with its extracted evidence
(the `result` dict of source lines 376-380, minus the wall-clock
`detected_at` stamp). -/
abbrev Event := ExecutiveDisclosure × PurchaseInfo

/-- The external collaborators of `monitor_executive_purchases`: the
listing oracle, the detail oracle (`get_disclosure_detail` composed with
`check_purchase_transaction`'s fetch at source line 197), and the
delivery outcome of `send_message` for a given event's message. -/
structure Env where
  fetch : String → Nat → ListResp
  detail : String → DartDetail
  sendOk : ExecutiveDisclosure → PurchaseInfo → Bool

/-- The observable side effects of one run, in order. -/
inductive Effect
  | fetchDetail (rcept_no : String)
  | notify (rcept_no : String) (delivered : Bool)
  | markProcessed (rcept_no : String)
deriving DecidableEq

/-- Whether an effect is a detail fetch. -/
def Effect.isFetchDetail : Effect → Bool
  | .fetchDetail _ => true
  | _ => false

/-- The `for disclosure in disclosures` loop of
`monitor_executive_purchases` (source lines 362-391): skip receipt
numbers already in `self.processed_disclosures`, fetch and check the
detail, and on evidence record the event, send the notification, and mark
the receipt number processed — in that order.  Returns the events, the
final processed set (as a list), and the effect trace.  The 1-second
rate-limit pause carries no data and is elided. -/
def monitorGo (env : Env) :
    List ExecutiveDisclosure → List String →
    List Event × List String × List Effect
  | [], processed => ([], processed, [])
  | d :: rest, processed =>
    if processed.contains d.rcept_no then
      monitorGo env rest processed
    else
      match check_purchase_transaction (env.detail d.rcept_no) with
      | none =>
        let r := monitorGo env rest processed
        (r.1, r.2.1, Effect.fetchDetail d.rcept_no :: r.2.2)
      | some info =>
        let ok := env.sendOk d info
        let r := monitorGo env rest (d.rcept_no :: processed)
        ((d, info) :: r.1, r.2.1,
         Effect.fetchDetail d.rcept_no :: Effect.notify d.rcept_no ok ::
           Effect.markProcessed d.rcept_no :: r.2.2)

/-- `ExecutiveMonitor.monitor_executive_purchases` (source lines 349-393)
from a given processed set: search, then run the per-disclosure loop.
(The early return when `disclosures` is empty coincides with the loop on
an empty list.) -/
def monitor_executive_purchases (env : Env) (processed : List String) :
    List Event × List String × List Effect :=
  monitorGo env (search_executive_disclosures env.fetch).1 processed

/-! ### The transport layer -/

/-- The outcome of one `session.get`/`requests` round trip as the
`try` block of `get_disclosure_list` / `get_disclosure_detail` sees it:
either the call raised (connection failure, timeout), or a response
arrived with an HTTP status code and a body that either parses as JSON
(`some`) or makes `.json()` raise (`none`). -/
inductive HttpOutcome (β : Type)
  | raised : HttpOutcome β
  | response (status : Nat) (body : Option β) : HttpOutcome β

/-- `OpenDartAPI.get_disclosure_list` (source lines 94-114) from the
transport outcome onward: `response.raise_for_status()` raises exactly
when `400 <= status < 600` (4xx client errors and 5xx server errors);
any other status falls through to `.json()`, and every exception in the
`try` block is caught and turned into the empty dict `{}`. -/
def get_disclosure_list (r : HttpOutcome ListResp) : ListResp :=
  match r with
  | .raised => {}
  | .response status body =>
    if 400 ≤ status ∧ status < 600 then {}
    else
      match body with
      | some j => j
      | none => {}

/-- `OpenDartAPI.get_disclosure_detail` (source lines 116-130): same
failure-to-empty contract as the listing call. -/
def get_disclosure_detail (r : HttpOutcome DartDetail) : DartDetail :=
  match r with
  | .raised => {}
  | .response status body =>
    if 400 ≤ status ∧ status < 600 then {}
    else
      match body with
      | some j => j
      | none => {}

/-! ### The top-level `main` flow -/

/-- How one invocation of `main` (source lines 413-473) ends:
the messaging credentials were absent and `main` returned at line 426;
or the `try` body ran to completion with the run's results; or an
exception reached the outer handler, the monitor object having been
constructed or not. -/
inductive MainFlow
  | missingCreds
  | completed (results : List Event)
  | raised (monitorConstructed : Bool)
deriving DecidableEq

/-- The number of terminal (post-run) messages `main` sends to the
channel for a given flow, translated from its branches: the
missing-credentials return sends nothing (lines 424-426); a completed run
sends the completion message only when `results` is empty (lines
440-457); the exception handler sends the error message only when
`monitor` was bound (lines 459-470).  The startup test message (line 434)
and the per-event messages sent inside the run (line 385) are not
terminal messages. -/
def terminal_notification_count : MainFlow → Nat
  | .missingCreds => 0
  | .completed results => if results.isEmpty then 1 else 0
  | .raised constructed => if constructed then 1 else 0


/-! ### Substring containment: basic lemmas -/

theorem leadsWith_iff (n : List Char) :
    ∀ h : List Char, leadsWith n h = true ↔ ∃ t, h = n ++ t := by
  induction n with
  | nil => intro h; simp [leadsWith]
  | cons a as ih =>
    intro h
    cases h with
    | nil => simp [leadsWith]
    | cons b bs =>
      rw [leadsWith, Bool.and_eq_true, beq_iff_eq, ih]
      constructor
      · rintro ⟨rfl, t, rfl⟩
        exact ⟨t, rfl⟩
      · rintro ⟨t, ht⟩
        rw [List.cons_append, List.cons.injEq] at ht
        exact ⟨ht.1.symm, t, ht.2⟩

theorem containsSeq_iff (n : List Char) :
    ∀ h : List Char, containsSeq n h = true ↔
      ∃ pre post, h = pre ++ n ++ post := by
  intro h
  induction h with
  | nil =>
    rw [containsSeq, List.isEmpty_iff]
    constructor
    · rintro rfl
      exact ⟨[], [], rfl⟩
    · rintro ⟨pre, post, hp⟩
      rcases List.append_eq_nil.mp hp.symm with ⟨h1, -⟩
      exact (List.append_eq_nil.mp h1).2
  | cons c cs ih =>
    rw [containsSeq, Bool.or_eq_true, leadsWith_iff, ih]
    constructor
    · rintro (⟨t, ht⟩ | ⟨pre, post, rfl⟩)
      · exact ⟨[], t, by simpa using ht⟩
      · exact ⟨c :: pre, post, rfl⟩
    · rintro ⟨pre, post, hp⟩
      cases pre with
      | nil =>
        exact Or.inl ⟨post, by simpa using hp⟩
      | cons x xs =>
        rw [List.append_assoc, List.cons_append, List.cons.injEq] at hp
        exact Or.inr ⟨xs, post, by rw [hp.2, List.append_assoc]⟩

theorem containsSeq_trans {a b c : List Char}
    (hab : containsSeq a b = true) (hbc : containsSeq b c = true) :
    containsSeq a c = true := by
  obtain ⟨p1, s1, rfl⟩ := (containsSeq_iff a b).mp hab
  obtain ⟨p2, s2, rfl⟩ := (containsSeq_iff _ c).mp hbc
  exact (containsSeq_iff a _).mpr ⟨p2 ++ p1, s1 ++ s2, by simp⟩

theorem containsSub_trans {n m h : String}
    (hnm : containsSub n m = true) (hmh : containsSub m h = true) :
    containsSub n h = true :=
  containsSeq_trans hnm hmh

theorem containsSub_of_append (a k b : String) :
    containsSub k (a ++ k ++ b) = true := by
  rw [containsSub]
  refine (containsSeq_iff _ _).mpr ⟨a.toList, b.toList, ?_⟩
  show (a ++ k ++ b).data = a.data ++ k.data ++ b.data
  rw [String.data_append, String.data_append]

/-! ### Extraction branch lemmas -/

theorem extract_some_imp_keyword {c : String} {info : PurchaseInfo}
    (h : extract_purchase_details c = some info) :
    purchase_keywords.any (fun k => containsSub k c) = true := by
  rw [extract_purchase_details] at h
  by_cases h1 : (containsSub "장내매수" c || containsSub "장내 매수" c) = true
  · rcases Bool.or_eq_true _ _ ▸ h1 with h2 | h2
    · exact List.any_eq_true.mpr ⟨"장내매수", by simp [purchase_keywords], h2⟩
    · exact List.any_eq_true.mpr ⟨"장내 매수", by simp [purchase_keywords], h2⟩
  · rw [if_neg h1] at h
    by_cases h2 : containsSub "매수" c = true
    · exact List.any_eq_true.mpr ⟨"매수", by simp [purchase_keywords], h2⟩
    · rw [if_neg h2] at h
      exact absurd h (by simp)

theorem extract_none_of_no_maesu {c : String}
    (h : containsSub "매수" c = false) :
    extract_purchase_details c = none := by
  have h1 : containsSub "장내매수" c = false := by
    cases hx : containsSub "장내매수" c
    · rfl
    · simpa [h] using
        containsSub_trans (by decide : containsSub "매수" "장내매수" = true) hx
  have h2 : containsSub "장내 매수" c = false := by
    cases hx : containsSub "장내 매수" c
    · rfl
    · simpa [h] using
        containsSub_trans (by decide : containsSub "매수" "장내 매수" = true) hx
  simp [extract_purchase_details, h1, h2, h]

/-- Claim C3: the purchase-keyword tie-break of `extract_purchase_details`
(source lines 248-258): content holding `장내매수` or `장내 매수` gets
transaction type and reason `장내매수`; otherwise content holding `매수`
gets both set to `매수`; and content without any purchase keyword makes
`check_purchase_transaction` answer `none` for a filing whose only
document is that content. -/
theorem purchase_tiebreak_classification (c : String) :
    (containsSub "장내매수" c = true ∨ containsSub "장내 매수" c = true →
      (extract_purchase_details c).map
        (fun i => (i.transaction_type, i.reason)) =
        some ("장내매수", "장내매수")) ∧
    (containsSub "장내매수" c = false → containsSub "장내 매수" c = false →
      containsSub "매수" c = true →
      (extract_purchase_details c).map
        (fun i => (i.transaction_type, i.reason)) = some ("매수", "매수")) ∧
    (containsSub "매수" c = false →
      check_purchase_transaction
        { status := some "000", list := some [{ content := c }] } = none) := by
  refine ⟨?_, ?_, ?_⟩
  · intro h
    have hc : (containsSub "장내매수" c || containsSub "장내 매수" c) = true := by
      rcases h with h | h <;> simp [h]
    simp [extract_purchase_details, hc]
  · intro h1 h2 h3
    simp [extract_purchase_details, h1, h2, h3]
  · intro h
    have he : extract_purchase_details c = none := extract_none_of_no_maesu h
    show checkDocs [{ content := c }] = none
    rw [checkDocs]
    split
    · simp [he, checkDocs]
    · simp [checkDocs]

/-- Closed instances of `purchase_tiebreak_classification`, one per
hypothesis branch. -/
theorem purchase_tiebreak_classification_witness :
    (extract_purchase_details "장내 매수 1주").map
        (fun i => (i.transaction_type, i.reason)) = some ("장내매수", "장내매수") ∧
    (extract_purchase_details "단순 매수 1주").map
        (fun i => (i.transaction_type, i.reason)) = some ("매수", "매수") ∧
    check_purchase_transaction
        { status := some "000", list := some [{ content := "취득" }] } = none :=
  ⟨(purchase_tiebreak_classification "장내 매수 1주").1 (Or.inr (by decide)),
   (purchase_tiebreak_classification "단순 매수 1주").2.1 (by decide) (by decide)
     (by decide),
   (purchase_tiebreak_classification "취득").2.2 (by decide)⟩

/-- Claim C5: `isQualifyingReport` is true exactly when the report name
contains one of the four title variants as a contiguous (case-exact)
substring, and wrapping a variant in arbitrary text always yields true —
so permuting or duplicating the surrounding text cannot change the
result. -/
theorem qualifying_report_iff_contains_variant :
    (∀ s : String, isQualifyingReport s = true ↔
      ∃ k ∈ executive_keywords, ∃ pre post,
        s.toList = pre ++ k.toList ++ post) ∧
    (∀ a b k : String, k ∈ executive_keywords →
      isQualifyingReport (a ++ k ++ b) = true) := by
  constructor
  · intro s
    rw [isQualifyingReport, List.any_eq_true]
    constructor
    · rintro ⟨k, hk, hc⟩
      exact ⟨k, hk, (containsSeq_iff _ _).mp hc⟩
    · rintro ⟨k, hk, pre, post, hp⟩
      exact ⟨k, hk, (containsSeq_iff _ _).mpr ⟨pre, post, hp⟩⟩
  · intro a b k hk
    rw [isQualifyingReport]
    exact List.any_eq_true.mpr ⟨k, hk, containsSub_of_append a k b⟩

/-- Closed instance of `qualifying_report_iff_contains_variant`: a variant
embedded in surrounding text is classified as qualifying. -/
theorem qualifying_report_iff_contains_variant_witness :
    isQualifyingReport ("정정: " ++ "임원특정증권등소유상황보고서" ++ " (2024)") = true :=
  qualifying_report_iff_contains_variant.2 "정정: " " (2024)"
    "임원특정증권등소유상황보고서" (by simp [executive_keywords])

/-- Claim C8: the golden field-extraction cases (a purchase keyword being
present so that evidence is returned): `보고자: 홍길동` gives reporter
`홍길동`, `1,000주` gives shares `1,000`, and `2024-01-15` gives
transaction date `2024-01-15`. -/
theorem extraction_golden_cases :
    (extract_purchase_details "장내매수 보고자: 홍길동").map
      (fun i => i.reporter) = some "홍길동" ∧
    (extract_purchase_details "장내매수 1,000주").map
      (fun i => i.shares) = some "1,000" ∧
    (extract_purchase_details "장내매수 2024-01-15").map
      (fun i => i.transaction_date) = some "2024-01-15" :=
  ⟨by decide, by decide, by decide⟩

/-- The behaviour claimed for `findPurchaseEvidence`, stated from the
spec's words for comparison with the code: "for the first document whose
content contains any of a fixed purchase-keyword set, extracts evidence
and returns it; returns none if no document qualifies". -/
def findPurchaseEvidence_claimed (docs : List Doc) : Option PurchaseInfo :=
  match docs.find?
      (fun d => purchase_keywords.any (fun k => containsSub k d.content)) with
  | some d => extract_purchase_details d.content
  | none => none

/-- Counterexample to claim C4: with documents `취득` then `매수`, the
first keyword-containing document is `취득`, whose extraction yields none
(no `매수` inside), yet the code keeps scanning and returns evidence from
the second document — so the result is not the evidence extracted from
the first keyword-containing document. -/
theorem first_keyword_document_counterexample :
    checkDocs [{ content := "취득" }, { content := "매수" }] ≠
      findPurchaseEvidence_claimed [{ content := "취득" }, { content := "매수" }] ∧
    List.find? (fun (d : Doc) => purchase_keywords.any (fun k => containsSub k d.content))
      [{ content := "취득" }, { content := "매수" }] = some { content := "취득" } ∧
    extract_purchase_details "취득" = none ∧
    (checkDocs [{ content := "취득" }, { content := "매수" }]).isSome = true :=
  ⟨by decide, by decide, by decide, by decide⟩

/-- Claim C4 as amended: the document scan returns the result of the
first document whose content contains a purchase keyword AND whose
extraction succeeds, skipping keyword-containing documents whose
extraction fails; it returns none exactly when every document's
extraction fails. -/
theorem first_successful_extraction (docs : List Doc) :
    (checkDocs docs = none ↔
      ∀ d ∈ docs, extract_purchase_details d.content = none) ∧
    (∀ info, checkDocs docs = some info →
      ∃ l1 d l2, docs = l1 ++ d :: l2 ∧
        purchase_keywords.any (fun k => containsSub k d.content) = true ∧
        extract_purchase_details d.content = some info ∧
        ∀ d2 ∈ l1, extract_purchase_details d2.content = none) := by
  induction docs with
  | nil => simp [checkDocs]
  | cons d rest ih =>
    rcases he : extract_purchase_details d.content with _ | info0
    · have hc : checkDocs (d :: rest) = checkDocs rest := by
        rw [checkDocs]
        split
        · simp [he]
        · rfl
      rw [hc]
      constructor
      · rw [ih.1]
        constructor
        · intro hall d2 hd2
          rcases List.mem_cons.mp hd2 with h | h
          · rw [h]; exact he
          · exact hall d2 h
        · intro hall d2 hd2
          exact hall d2 (List.mem_cons_of_mem _ hd2)
      · intro info hinfo
        obtain ⟨l1, dd, l2, hsplit, hkk, hee, hall⟩ := ih.2 info hinfo
        refine ⟨d :: l1, dd, l2, by rw [hsplit]; rfl, hkk, hee, ?_⟩
        intro d2 hd2
        rcases List.mem_cons.mp hd2 with h | h
        · rw [h]; exact he
        · exact hall d2 h
    · have hk := extract_some_imp_keyword he
      have hc : checkDocs (d :: rest) = some info0 := by
        rw [checkDocs]; simp [hk, he]
      rw [hc]
      constructor
      · constructor
        · intro h; exact absurd h (by simp)
        · intro hall
          exact absurd (hall d (List.mem_cons_self d rest)) (by simp [he])
      · intro info hinfo
        have : info0 = info := by simpa using hinfo
        exact ⟨[], d, rest, rfl, hk, by rw [he, this], by simp⟩

/-- Closed instance of `first_successful_extraction`: a lone `취득`
document makes the scan answer none. -/
theorem first_successful_extraction_witness :
    checkDocs [{ content := "취득" }] = none :=
  (first_successful_extraction [{ content := "취득" }]).1.mpr (by decide)

/-- Counterexample to claim C6: a run that completes with at least one
event sends no terminal notification at all (the success-with-events
branch of `main`, lines 440-442, only saves results); so not every
outcome produces exactly one terminal notification. -/
theorem terminal_notification_counterexample :
    terminal_notification_count (MainFlow.completed
      [({ corp_name := "", corp_code := "", stock_code := "", report_nm := "",
          rcept_no := "", flr_nm := "", rcept_dt := "", rm := "" },
        { reporter := "", position := "", transaction_type := "", shares := "",
          price := "", transaction_date := "", reason := "",
          content_preview := "" })]) ≠ 1 := by decide

/-- Claim C6 as amended: at most one terminal notification is ever sent,
and exactly one is sent precisely when the run completes with no events
or fails after the monitor object was constructed; a run completing with
events, aborting on missing credentials, or failing before construction
sends none. -/
theorem terminal_notification_characterization (flow : MainFlow) :
    terminal_notification_count flow ≤ 1 ∧
    (terminal_notification_count flow = 1 ↔
      flow = MainFlow.completed [] ∨ flow = MainFlow.raised true) := by
  cases flow with
  | missingCreds => simp [terminal_notification_count]
  | completed results => cases results <;> simp [terminal_notification_count]
  | raised c => cases c <;> simp [terminal_notification_count]

/-- Closed instance of `terminal_notification_characterization`. -/
theorem terminal_notification_characterization_witness :
    terminal_notification_count (MainFlow.completed []) = 1 :=
  (terminal_notification_characterization (MainFlow.completed [])).2.mpr
    (Or.inl rfl)

/-- Counterexample to claim C9 as stated: a 3xx response (which
`raise_for_status` does not turn into an exception) carrying parseable
JSON is returned as-is, not as the empty result — "non-2xx" is wider
than what the code converts to empty. -/
theorem non2xx_response_not_always_empty :
    get_disclosure_list (HttpOutcome.response 301
      (some { status := some "000", list := some [] })) =
      { status := some "000", list := some [] } ∧
    ({ status := some "000", list := some [] } : ListResp) ≠ {} :=
  ⟨rfl, by decide⟩

/-- Claim C9 as amended: both endpoint wrappers are total (they never
raise), and they return the empty dict on a raised transport call
(connection failure or timeout), on any 4xx/5xx status — the exact range
`raise_for_status` raises for — and on a body that fails JSON parsing;
any status outside 400-599 with parseable JSON is returned unchanged. -/
theorem transport_failures_yield_empty :
    (get_disclosure_list HttpOutcome.raised = {} ∧
     (∀ (s : Nat) (b : Option ListResp), 400 ≤ s → s < 600 →
        get_disclosure_list (HttpOutcome.response s b) = {}) ∧
     (∀ s : Nat, ¬(400 ≤ s ∧ s < 600) →
        get_disclosure_list (HttpOutcome.response s none) = {}) ∧
     (∀ (s : Nat) (j : ListResp), ¬(400 ≤ s ∧ s < 600) →
        get_disclosure_list (HttpOutcome.response s (some j)) = j)) ∧
    (get_disclosure_detail HttpOutcome.raised = {} ∧
     (∀ (s : Nat) (b : Option DartDetail), 400 ≤ s → s < 600 →
        get_disclosure_detail (HttpOutcome.response s b) = {}) ∧
     (∀ s : Nat, ¬(400 ≤ s ∧ s < 600) →
        get_disclosure_detail (HttpOutcome.response s none) = {}) ∧
     (∀ (s : Nat) (j : DartDetail), ¬(400 ≤ s ∧ s < 600) →
        get_disclosure_detail (HttpOutcome.response s (some j)) = j)) := by
  refine ⟨⟨rfl, ?_, ?_, ?_⟩, rfl, ?_, ?_, ?_⟩
  · intro s b h1 h2
    simp [get_disclosure_list, h1, h2]
  · intro s h
    simp [get_disclosure_list, h]
  · intro s j h
    simp [get_disclosure_list, h]
  · intro s b h1 h2
    simp [get_disclosure_detail, h1, h2]
  · intro s h
    simp [get_disclosure_detail, h]
  · intro s j h
    simp [get_disclosure_detail, h]

/-- Closed instances of `transport_failures_yield_empty`: a 500 response
is emptied, a 200 response with a malformed body is emptied, and a
non-conforming 999 response with parseable JSON is returned unchanged
(it is outside `raise_for_status`'s raising range). -/
theorem transport_failures_yield_empty_witness :
    get_disclosure_list (HttpOutcome.response 500
      (some { status := some "000", list := some [] })) = {} ∧
    get_disclosure_detail (HttpOutcome.response 200 none) = {} ∧
    get_disclosure_list (HttpOutcome.response 999
      (some { status := some "000", list := some [] })) =
      { status := some "000", list := some [] } :=
  ⟨transport_failures_yield_empty.1.2.1 500 _ (by decide) (by decide),
   transport_failures_yield_empty.2.2.2.1 200 (by decide),
   transport_failures_yield_empty.1.2.2.2 999 _ (by decide)⟩

/-! ### Pagination: unfolding lemmas and the termination shape -/

theorem searchGo_empty (fetch : String → Nat → ListResp) (f page : Nat)
    (he : (combinedPage fetch page).isEmpty = true) :
    searchGo fetch (f + 1) page = ([], 1) := by
  rw [searchGo]
  simp [he]

theorem searchGo_short (fetch : String → Nat → ListResp) (f page : Nat)
    (he : ¬(combinedPage fetch page).isEmpty = true)
    (hlen : (combinedPage fetch page).length < 100) :
    searchGo fetch (f + 1) page =
      (filterPage (combinedPage fetch page), 1) := by
  rw [searchGo]
  simp [he, hlen]

theorem searchGo_cap (fetch : String → Nat → ListResp) (f page : Nat)
    (he : ¬(combinedPage fetch page).isEmpty = true)
    (hlen : ¬(combinedPage fetch page).length < 100)
    (hcap : page + 1 > 10) :
    searchGo fetch (f + 1) page =
      (filterPage (combinedPage fetch page), 1) := by
  rw [searchGo]
  simp [he, hlen, hcap]

theorem searchGo_step (fetch : String → Nat → ListResp) (f page : Nat)
    (he : ¬(combinedPage fetch page).isEmpty = true)
    (hlen : ¬(combinedPage fetch page).length < 100)
    (hcap : ¬page + 1 > 10) :
    searchGo fetch (f + 1) page =
      (filterPage (combinedPage fetch page) ++ (searchGo fetch f (page + 1)).1,
       (searchGo fetch f (page + 1)).2 + 1) := by
  rw [searchGo]
  simp only [if_neg he, if_neg hlen, if_neg hcap]

/-- Shape of the loop's stopping behaviour, relative to the fuel
invariant `fuel + page = 11` maintained by `search_executive_disclosures`:
the loop visits `m + 1` pages, every page before the last held at least
100 combined entries, and the last page is short (or empty) or is the
page-10 cap. -/
theorem searchGo_stops (fetch : String → Nat → ListResp) :
    ∀ fuel page : Nat, fuel + page = 11 → 1 ≤ fuel →
      ∃ m, (searchGo fetch fuel page).2 = m + 1 ∧ m + 1 ≤ fuel ∧
        (∀ k, k < m → 100 ≤ (combinedPage fetch (page + k)).length) ∧
        ((combinedPage fetch (page + m)).length < 100 ∨ page + m = 10) := by
  intro fuel
  induction fuel with
  | zero =>
    intro page _ h1
    exact absurd h1 (by omega)
  | succ f ih =>
    intro page hsum _
    by_cases he : (combinedPage fetch page).isEmpty = true
    · refine ⟨0, ?_, by omega, fun k hk => absurd hk (Nat.not_lt_zero k), ?_⟩
      · rw [searchGo_empty fetch f page he]
      · left
        rw [Nat.add_zero, List.isEmpty_iff.mp he]
        simp
    · by_cases hlen : (combinedPage fetch page).length < 100
      · refine ⟨0, ?_, by omega,
          fun k hk => absurd hk (Nat.not_lt_zero k), ?_⟩
        · rw [searchGo_short fetch f page he hlen]
        · left
          simpa using hlen
      · by_cases hcap : page + 1 > 10
        · refine ⟨0, ?_, by omega,
            fun k hk => absurd hk (Nat.not_lt_zero k), Or.inr (by omega)⟩
          rw [searchGo_cap fetch f page he hlen hcap]
        · have hf : 1 ≤ f := by omega
          have hsum2 : f + (page + 1) = 11 := by omega
          obtain ⟨m, hm1, hm2, hm3, hm4⟩ := ih (page + 1) hsum2 hf
          refine ⟨m + 1, ?_, by omega, ?_, ?_⟩
          · rw [searchGo_step fetch f page he hlen hcap]
            simp [hm1]
          · intro k hk
            cases k with
            | zero => simpa using Nat.not_lt.mp hlen
            | succ j =>
              have hj : j < m := by omega
              have := hm3 j hj
              rwa [show page + (j + 1) = page + 1 + j by omega]
          · rwa [show page + (m + 1) = page + 1 + m by omega]

/-- Mocked upstream for the `[100,100,100,50]` scenario: the KOSPI
segment serves 100 entries on pages 1-3 and 50 on page 4; the KOSDAQ
call fails (empty dict), so the combined page lengths are
100, 100, 100, 50. -/
def fetchA : String → Nat → ListResp := fun cls p =>
  if cls = "Y" then
    { status := some "000",
      list := some (List.replicate
        (if p ≤ 3 then 100 else if p = 4 then 50 else 0) {}) }
  else {}

/-- Mocked upstream for the `[0]` scenario: every call fails, so the
first combined page is empty. -/
def fetchB : String → Nat → ListResp := fun _ _ => {}

/-- Claim C1: the paginated search stops exactly at the first page whose
combined (KOSPI + KOSDAQ) entry count is 0 or below 100, or at page 10,
whichever comes first; in particular combined page lengths
`[100,100,100,50]` give exactly 4 iterations, and `[0]` gives 1
iteration with zero results. -/
theorem pagination_stops_at_first_short_page
    (fetch : String → Nat → ListResp) :
    (1 ≤ (search_executive_disclosures fetch).2 ∧
     (search_executive_disclosures fetch).2 ≤ 10 ∧
     (∀ p, 1 ≤ p → p < (search_executive_disclosures fetch).2 →
        100 ≤ (combinedPage fetch p).length) ∧
     ((combinedPage fetch ((search_executive_disclosures fetch).2)).length
        < 100 ∨
      (search_executive_disclosures fetch).2 = 10)) ∧
    (search_executive_disclosures fetchA).2 = 4 ∧
    search_executive_disclosures fetchB = ([], 1) := by
  obtain ⟨m, hm1, hm2, hm3, hm4⟩ :=
    searchGo_stops fetch 10 1 (by omega) (by omega)
  have hn : (search_executive_disclosures fetch).2 = m + 1 := hm1
  refine ⟨⟨by omega, by omega, ?_, ?_⟩, by decide, by decide⟩
  · intro p hp1 hp2
    cases p with
    | zero => omega
    | succ k =>
      have hk : k < m := by omega
      have := hm3 k hk
      rwa [show 1 + k = k + 1 by omega] at this
  · rw [hn, show m + 1 = 1 + m by omega]
    exact hm4

/-- Closed instance of `pagination_stops_at_first_short_page`: in the
`[100,100,100,50]` scenario the first page is a full page. -/
theorem pagination_stops_at_first_short_page_witness :
    100 ≤ (combinedPage fetchA 1).length :=
  (pagination_stops_at_first_short_page fetchA).1.2.2.1 1 (by decide)
    (by decide)

/-! ### The monitoring loop: unfolding lemmas -/

theorem contains_mem {l : List String} {s : String} :
    l.contains s = true ↔ s ∈ l :=
  List.elem_iff

theorem monitorGo_skip (env : Env) (d : ExecutiveDisclosure)
    (rest : List ExecutiveDisclosure) (processed : List String)
    (hc : processed.contains d.rcept_no = true) :
    monitorGo env (d :: rest) processed = monitorGo env rest processed := by
  rw [monitorGo, if_pos hc]

theorem monitorGo_none (env : Env) (d : ExecutiveDisclosure)
    (rest : List ExecutiveDisclosure) (processed : List String)
    (hc : ¬processed.contains d.rcept_no = true)
    (hch : check_purchase_transaction (env.detail d.rcept_no) = none) :
    monitorGo env (d :: rest) processed =
      ((monitorGo env rest processed).1,
       (monitorGo env rest processed).2.1,
       Effect.fetchDetail d.rcept_no :: (monitorGo env rest processed).2.2) := by
  rw [monitorGo, if_neg hc, hch]

theorem monitorGo_some (env : Env) (d : ExecutiveDisclosure)
    (rest : List ExecutiveDisclosure) (processed : List String)
    (info : PurchaseInfo)
    (hc : ¬processed.contains d.rcept_no = true)
    (hch : check_purchase_transaction (env.detail d.rcept_no) = some info) :
    monitorGo env (d :: rest) processed =
      ((d, info) :: (monitorGo env rest (d.rcept_no :: processed)).1,
       (monitorGo env rest (d.rcept_no :: processed)).2.1,
       Effect.fetchDetail d.rcept_no ::
         Effect.notify d.rcept_no (env.sendOk d info) ::
         Effect.markProcessed d.rcept_no ::
         (monitorGo env rest (d.rcept_no :: processed)).2.2) := by
  rw [monitorGo, if_neg hc, hch]

/-! ### The monitoring loop: invariants -/

/-- A receipt number is in the final processed set exactly when it was
already there or an event was produced for it. -/
theorem monitorGo_mem_processed (env : Env) :
    ∀ (ds : List ExecutiveDisclosure) (processed : List String) (r : String),
      r ∈ (monitorGo env ds processed).2.1 ↔
        r ∈ processed ∨
          ∃ e ∈ (monitorGo env ds processed).1, e.1.rcept_no = r := by
  intro ds
  induction ds with
  | nil =>
    intro processed r
    simp [monitorGo]
  | cons d rest ih =>
    intro processed r
    by_cases hc : processed.contains d.rcept_no = true
    · rw [monitorGo_skip env d rest processed hc]
      exact ih processed r
    · cases hch : check_purchase_transaction (env.detail d.rcept_no) with
      | none =>
        rw [monitorGo_none env d rest processed hc hch]
        exact ih processed r
      | some info =>
        rw [monitorGo_some env d rest processed info hc hch]
        show r ∈ (monitorGo env rest (d.rcept_no :: processed)).2.1 ↔ _
        rw [ih (d.rcept_no :: processed) r]
        simp only [List.mem_cons]
        constructor
        · rintro ((rfl | hr) | ⟨e, he, hre⟩)
          · exact Or.inr ⟨(d, info), Or.inl rfl, rfl⟩
          · exact Or.inl hr
          · exact Or.inr ⟨e, Or.inr he, hre⟩
        · rintro (hr | ⟨e, (rfl | he), hre⟩)
          · exact Or.inl (Or.inr hr)
          · exact Or.inl (Or.inl hre.symm)
          · exact Or.inr ⟨e, he, hre⟩

/-- No event is produced for a receipt number that was already in the
processed set when the loop started. -/
theorem monitorGo_fresh (env : Env) :
    ∀ (ds : List ExecutiveDisclosure) (processed : List String),
      ∀ e ∈ (monitorGo env ds processed).1, e.1.rcept_no ∉ processed := by
  intro ds
  induction ds with
  | nil =>
    intro processed e he
    simp [monitorGo] at he
  | cons d rest ih =>
    intro processed e he
    by_cases hc : processed.contains d.rcept_no = true
    · rw [monitorGo_skip env d rest processed hc] at he
      exact ih processed e he
    · cases hch : check_purchase_transaction (env.detail d.rcept_no) with
      | none =>
        rw [monitorGo_none env d rest processed hc hch] at he
        exact ih processed e he
      | some info =>
        rw [monitorGo_some env d rest processed info hc hch] at he
        rcases List.mem_cons.mp he with rfl | he2
        · exact fun hmem => hc (contains_mem.mpr hmem)
        · intro hmem
          exact ih (d.rcept_no :: processed) e he2
            (List.mem_cons_of_mem _ hmem)

/-- The receipt numbers of the produced events are pairwise distinct. -/
theorem monitorGo_nodup (env : Env) :
    ∀ (ds : List ExecutiveDisclosure) (processed : List String),
      ((monitorGo env ds processed).1.map
        (fun e => e.1.rcept_no)).Nodup := by
  intro ds
  induction ds with
  | nil =>
    intro processed
    simp [monitorGo]
  | cons d rest ih =>
    intro processed
    by_cases hc : processed.contains d.rcept_no = true
    · rw [monitorGo_skip env d rest processed hc]
      exact ih processed
    · cases hch : check_purchase_transaction (env.detail d.rcept_no) with
      | none =>
        rw [monitorGo_none env d rest processed hc hch]
        exact ih processed
      | some info =>
        rw [monitorGo_some env d rest processed info hc hch]
        show (d.rcept_no ::
          (monitorGo env rest (d.rcept_no :: processed)).1.map
            (fun e => e.1.rcept_no)).Nodup
        refine List.nodup_cons.mpr ⟨?_, ih (d.rcept_no :: processed)⟩
        intro hmem
        obtain ⟨e, he, hre⟩ := List.mem_map.mp hmem
        exact monitorGo_fresh env rest (d.rcept_no :: processed) e he
          (hre ▸ List.mem_cons_self _ _)

/-- Every disclosure the loop saw either has its receipt number in the
final processed set or its detail check yields none. -/
theorem monitorGo_covered (env : Env) :
    ∀ (ds : List ExecutiveDisclosure) (processed : List String),
      ∀ d ∈ ds, d.rcept_no ∈ (monitorGo env ds processed).2.1 ∨
        check_purchase_transaction (env.detail d.rcept_no) = none := by
  intro ds
  induction ds with
  | nil =>
    intro processed d hd
    simp at hd
  | cons d rest ih =>
    intro processed d2 hd2
    by_cases hc : processed.contains d.rcept_no = true
    · rw [monitorGo_skip env d rest processed hc]
      rcases List.mem_cons.mp hd2 with rfl | hd3
      · exact Or.inl ((monitorGo_mem_processed env rest processed
          d2.rcept_no).mpr (Or.inl (contains_mem.mp hc)))
      · exact ih processed d2 hd3
    · cases hch : check_purchase_transaction (env.detail d.rcept_no) with
      | none =>
        rw [monitorGo_none env d rest processed hc hch]
        rcases List.mem_cons.mp hd2 with rfl | hd3
        · exact Or.inr hch
        · exact ih processed d2 hd3
      | some info =>
        rw [monitorGo_some env d rest processed info hc hch]
        rcases List.mem_cons.mp hd2 with rfl | hd3
        · exact Or.inl ((monitorGo_mem_processed env rest
            (d2.rcept_no :: processed) d2.rcept_no).mpr
            (Or.inl (List.mem_cons_self _ _)))
        · exact ih (d.rcept_no :: processed) d2 hd3

/-- If every disclosure is either already processed or checks to none,
the loop produces no events. -/
theorem monitorGo_no_events (env : Env) :
    ∀ (ds : List ExecutiveDisclosure) (processed : List String),
      (∀ d ∈ ds, d.rcept_no ∈ processed ∨
        check_purchase_transaction (env.detail d.rcept_no) = none) →
      (monitorGo env ds processed).1 = [] := by
  intro ds
  induction ds with
  | nil =>
    intro processed _
    simp [monitorGo]
  | cons d rest ih =>
    intro processed hall
    by_cases hc : processed.contains d.rcept_no = true
    · rw [monitorGo_skip env d rest processed hc]
      exact ih processed (fun d2 hd2 => hall d2 (List.mem_cons_of_mem _ hd2))
    · have hch : check_purchase_transaction (env.detail d.rcept_no) = none := by
        rcases hall d (List.mem_cons_self _ _) with hmem | hnone
        · exact absurd (contains_mem.mpr hmem) hc
        · exact hnone
      rw [monitorGo_none env d rest processed hc hch]
      show (monitorGo env rest processed).1 = []
      exact ih processed (fun d2 hd2 => hall d2 (List.mem_cons_of_mem _ hd2))

/-- Claim C2: starting from the empty processed set, a receipt number
ends up in the processed set iff an event was produced for it, event
receipt numbers are pairwise distinct (no record is emitted twice within
one ProcessedSet lifetime), and a second run against the unchanged
upstream (same oracles) from the resulting processed set produces no
events at all. -/
theorem processed_set_iff_event_and_dedup (env : Env) :
    (∀ r, r ∈ (monitor_executive_purchases env []).2.1 ↔
      ∃ e ∈ (monitor_executive_purchases env []).1, e.1.rcept_no = r) ∧
    ((monitor_executive_purchases env []).1.map
      (fun e => e.1.rcept_no)).Nodup ∧
    (monitor_executive_purchases env
      ((monitor_executive_purchases env []).2.1)).1 = [] := by
  refine ⟨?_, ?_, ?_⟩
  · intro r
    rw [monitor_executive_purchases,
      monitorGo_mem_processed env (search_executive_disclosures env.fetch).1 [] r]
    simp
  · exact monitorGo_nodup env (search_executive_disclosures env.fetch).1 []
  · exact monitorGo_no_events env (search_executive_disclosures env.fetch).1
      (monitor_executive_purchases env []).2.1
      (monitorGo_covered env (search_executive_disclosures env.fetch).1 [])

/-- Per-event notification effects: for each event, a notify with the
delivery outcome followed by a mark-processed, in event order. -/
def effectsOfEvents (env : Env) : List Event → List Effect
  | [] => []
  | e :: rest =>
    Effect.notify e.1.rcept_no (env.sendOk e.1 e.2) ::
      Effect.markProcessed e.1.rcept_no :: effectsOfEvents env rest

/-- Dropping the detail fetches, the loop's effect trace is exactly
notify-then-mark for each event, in order. -/
theorem monitorGo_trace (env : Env) :
    ∀ (ds : List ExecutiveDisclosure) (processed : List String),
      (monitorGo env ds processed).2.2.filter
        (fun e => !e.isFetchDetail) =
        effectsOfEvents env (monitorGo env ds processed).1 := by
  intro ds
  induction ds with
  | nil =>
    intro processed
    simp [monitorGo, effectsOfEvents]
  | cons d rest ih =>
    intro processed
    by_cases hc : processed.contains d.rcept_no = true
    · rw [monitorGo_skip env d rest processed hc]
      exact ih processed
    · cases hch : check_purchase_transaction (env.detail d.rcept_no) with
      | none =>
        rw [monitorGo_none env d rest processed hc hch]
        show List.filter _ (Effect.fetchDetail d.rcept_no :: _) = _
        rw [List.filter_cons_of_neg (by simp [Effect.isFetchDetail])]
        exact ih processed
      | some info =>
        rw [monitorGo_some env d rest processed info hc hch]
        show List.filter _ (Effect.fetchDetail d.rcept_no ::
          Effect.notify d.rcept_no (env.sendOk d info) ::
          Effect.markProcessed d.rcept_no :: _) =
          effectsOfEvents env ((d, info) :: _)
        rw [List.filter_cons_of_neg (by simp [Effect.isFetchDetail]),
          List.filter_cons_of_pos (by simp [Effect.isFetchDetail]),
          List.filter_cons_of_pos (by simp [Effect.isFetchDetail]),
          effectsOfEvents]
        rw [ih (d.rcept_no :: processed)]

/-- Claim C7: per matching filing the side effects are strictly ordered
notify-then-mark-processed (the trace, detail fetches aside, is exactly
that sequence per event), and every event's receipt number is in the
final processed set — delivery failure included, since the statement
holds for every `sendOk` oracle, in particular the constantly-false
one. -/
theorem notify_then_mark_even_on_failed_delivery (env : Env)
    (processed : List String) :
    (monitor_executive_purchases env processed).2.2.filter
        (fun e => !e.isFetchDetail) =
      effectsOfEvents env (monitor_executive_purchases env processed).1 ∧
    ∀ e ∈ (monitor_executive_purchases env processed).1,
      e.1.rcept_no ∈ (monitor_executive_purchases env processed).2.1 := by
  refine ⟨monitorGo_trace env _ processed, ?_⟩
  intro e he
  exact (monitorGo_mem_processed env
    (search_executive_disclosures env.fetch).1 processed
    e.1.rcept_no).mpr (Or.inr ⟨e, he, rfl⟩)

/-- A qualifying listing entry for the concrete scenarios. -/
def itemQ : Item :=
  { corp_name := some "갑회사",
    report_nm := some "임원특정증권등소유상황보고서",
    rcept_no := some "20240115000001" }

/-- A detail response whose single document evidences an on-market
purchase. -/
def detailP : DartDetail :=
  { status := some "000",
    list := some [{ content := "장내매수 보고자: 홍길동 1,000주" }] }

/-- Concrete environment: one qualifying filing on one short page, a
purchase-evidencing detail, and a notifier whose delivery always
fails. -/
def envC : Env :=
  { fetch := fun cls p =>
      if cls = "Y" then
        if p = 1 then { status := some "000", list := some [itemQ] } else {}
      else {}
    detail := fun _ => detailP
    sendOk := fun _ _ => false }

/-- Closed instance of `processed_set_iff_event_and_dedup`: the second
run in the failing-delivery environment produces no events. -/
theorem processed_set_iff_event_and_dedup_witness :
    (monitor_executive_purchases envC
      ((monitor_executive_purchases envC []).2.1)).1 = [] :=
  (processed_set_iff_event_and_dedup envC).2.2

/-- Closed instance of `notify_then_mark_even_on_failed_delivery` in the
environment whose delivery always fails. -/
theorem notify_then_mark_even_on_failed_delivery_witness :
    (monitor_executive_purchases envC []).2.2.filter
        (fun e => !e.isFetchDetail) =
      effectsOfEvents envC (monitor_executive_purchases envC []).1 :=
  (notify_then_mark_even_on_failed_delivery envC []).1

/-- Once a receipt number is in the processed set, the loop never fetches
its detail. -/
theorem monitorGo_no_fetch_of_processed (env : Env) :
    ∀ (ds : List ExecutiveDisclosure) (processed : List String) (r : String),
      r ∈ processed →
      Effect.fetchDetail r ∉ (monitorGo env ds processed).2.2 := by
  intro ds
  induction ds with
  | nil =>
    intro processed r hr
    simp [monitorGo]
  | cons d rest ih =>
    intro processed r hr
    by_cases hc : processed.contains d.rcept_no = true
    · rw [monitorGo_skip env d rest processed hc]
      exact ih processed r hr
    · have hne : Effect.fetchDetail d.rcept_no ≠ Effect.fetchDetail r := by
        intro hfd
        have : d.rcept_no = r := by injection hfd
        exact hc (contains_mem.mpr (this ▸ hr))
      cases hch : check_purchase_transaction (env.detail d.rcept_no) with
      | none =>
        rw [monitorGo_none env d rest processed hc hch]
        intro hmem
        rcases List.mem_cons.mp hmem with h | h
        · exact hne h.symm
        · exact ih processed r hr h
      | some info =>
        rw [monitorGo_some env d rest processed info hc hch]
        intro hmem
        rcases List.mem_cons.mp hmem with h | hmem2
        · exact hne h.symm
        rcases List.mem_cons.mp hmem2 with h | hmem3
        · exact absurd h (by simp)
        rcases List.mem_cons.mp hmem3 with h | hmem4
        · exact absurd h (by simp)
        · exact ih (d.rcept_no :: processed) r
            (List.mem_cons_of_mem _ hr) hmem4

/-- After a mark-processed effect for a receipt number, no later detail
fetch for that receipt number appears in the trace. -/
theorem monitorGo_no_fetch_after_mark (env : Env) :
    ∀ (ds : List ExecutiveDisclosure) (processed : List String)
      (r : String) (pre post : List Effect),
      (monitorGo env ds processed).2.2 =
        pre ++ Effect.markProcessed r :: post →
      Effect.fetchDetail r ∉ post := by
  intro ds
  induction ds with
  | nil =>
    intro processed r pre post h
    rw [monitorGo] at h
    exact absurd h.symm (by simp)
  | cons d rest ih =>
    intro processed r pre post h
    by_cases hc : processed.contains d.rcept_no = true
    · rw [monitorGo_skip env d rest processed hc] at h
      exact ih processed r pre post h
    · cases hch : check_purchase_transaction (env.detail d.rcept_no) with
      | none =>
        rw [monitorGo_none env d rest processed hc hch] at h
        cases pre with
        | nil => simp at h
        | cons y1 pre1 =>
          rw [List.cons_append, List.cons.injEq] at h
          exact ih processed r pre1 post h.2
      | some info =>
        rw [monitorGo_some env d rest processed info hc hch] at h
        cases pre with
        | nil => simp at h
        | cons y1 pre1 =>
          rw [List.cons_append, List.cons.injEq] at h
          obtain ⟨-, h⟩ := h
          cases pre1 with
          | nil => simp at h
          | cons y2 pre2 =>
            rw [List.cons_append, List.cons.injEq] at h
            obtain ⟨-, h⟩ := h
            cases pre2 with
            | nil =>
              rw [List.nil_append, List.cons.injEq] at h
              obtain ⟨hk, hpost⟩ := h
              have hr : d.rcept_no = r := by injection hk
              rw [← hpost]
              exact monitorGo_no_fetch_of_processed env rest
                (d.rcept_no :: processed) r (hr ▸ List.mem_cons_self _ _)
            | cons y3 pre3 =>
              rw [List.cons_append, List.cons.injEq] at h
              exact ih (d.rcept_no :: processed) r pre3 post h.2

/-- Two qualifying listing entries with no receipt-number field, for
distinct companies. -/
def itemN1 : Item :=
  { corp_name := some "갑회사", report_nm := some "임원특정증권등소유상황보고서" }

def itemN2 : Item :=
  { corp_name := some "을회사", report_nm := some "주요주주특정증권등소유상황보고서" }

/-- Concrete environment for the missing-receipt-number scenario: one
short page with two distinct qualifying filings, both lacking a receipt
number; every detail request answers with purchase evidence. -/
def envC10 : Env :=
  { fetch := fun cls p =>
      if cls = "Y" then
        if p = 1 then { status := some "000", list := some [itemN1, itemN2] }
        else {}
      else {}
    detail := fun _ => detailP
    sendOk := fun _ _ => true }

/-- Claim C10: a listing entry without a receipt-number field gets the
empty string as identity key; the loop never fetches the detail of a
receipt number after marking it processed; and in the concrete
two-filing scenario only the first filing produces an event and only one
detail fetch happens, although the detail endpoint would have evidenced
the second filing too — distinct filings suppress each other's events. -/
theorem missing_rcept_no_collapses_to_empty_key :
    (∀ item : Item, item.rcept_no = none →
      ∀ d ∈ filterPage [item], d.rcept_no = "") ∧
    (∀ (env : Env) (ds : List ExecutiveDisclosure) (processed : List String)
       (r : String) (pre post : List Effect),
       (monitorGo env ds processed).2.2 =
         pre ++ Effect.markProcessed r :: post →
       Effect.fetchDetail r ∉ post) ∧
    (monitor_executive_purchases envC10 []).1.map
      (fun e => e.1.corp_name) = ["갑회사"] ∧
    ((monitor_executive_purchases envC10 []).2.2.filter
      Effect.isFetchDetail).length = 1 ∧
    check_purchase_transaction (envC10.detail "") ≠ none := by
  refine ⟨?_, fun env => monitorGo_no_fetch_after_mark env, by decide, by decide,
    by decide⟩
  intro item hno d hd
  rw [filterPage, List.filterMap_cons] at hd
  by_cases hq : isQualifyingReport (item.report_nm.getD "") = true
  · simp only [hq, if_pos, List.filterMap_nil] at hd
    rcases List.mem_singleton.mp hd with rfl
    simp [hno]
  · simp only [hq, if_neg, List.filterMap_nil] at hd
    simp at hd

/-- Closed instance of `missing_rcept_no_collapses_to_empty_key`: in the
two-filing scenario the trace after the single mark of the empty key
holds no further detail fetch for it. -/
theorem missing_rcept_no_collapses_to_empty_key_witness :
    Effect.fetchDetail "" ∉ ([] : List Effect) :=
  missing_rcept_no_collapses_to_empty_key.2.1 envC10
    (search_executive_disclosures envC10.fetch).1 [] ""
    [Effect.fetchDetail "", Effect.notify "" true] [] (by decide)
